import Mathlib

/-!
# Verification of the tcp-failover-proxy backend-selection core

Shallow embedding of `src/TCPFailoverProxy.js`: backend-spec normalization
(`normalizeBackendHostObject`, `normalizeBackendHostObjectArray`), the
sequential backend prober (`scanAndConnectToValidBackend` / `recursiveScan`),
list rotation (`_rotateBackendList`), option processing
(`_processOptObject`) and the `close` method.

JavaScript conventions modelled explicitly:
* `NaN` (the result of a failed `parseInt`) is `Option.none`;
* a JS object's reference identity is an extra `ref : Nat` field on the
  in-memory backend record (`BackendObj`): two live objects are `===` iff
  they are the same allocation, which the embedding renders as full
  structural equality including `ref` (distinct allocations get distinct
  refs);
* an unbound identifier read throws `ReferenceError`, rendered as
  `Except.error (JsError.referenceError name)`;
* thrown strings become `Except.error` of the same string.
-/

/-- Source `isValidPort(port)`: `port > 0 && port <= 65535`.
The argument is `Option Int` so that `none` models `NaN` (and `undefined`):
every comparison against `NaN` is false in JS, hence `none ↦ false`. -/
def isValidPort (port : Option Int) : Bool :=
  match port with
  | none => false
  | some p => decide (p > 0) && decide (p ≤ 65535)

/-- Decimal behaviour of the JS builtin `parseInt(string)`: skip leading
whitespace, optional sign, then the longest leading run of decimal digits;
`none` (NaN) when that run is empty. (The automatic `0x`-radix detection of
`parseInt` is not exercised by any backend spec in scope and is not
modelled.) -/
def parseIntJS (s : String) : Option Int :=
  let cs := s.data.dropWhile (fun c => c = ' ' || c = '\t' || c = '\n' || c = '\r')
  let signAndRest : Int × List Char :=
    match cs with
    | '-' :: r => (-1, r)
    | '+' :: r => (1, r)
    | r => (1, r)
  let ds := signAndRest.2.takeWhile Char.isDigit
  if ds.isEmpty then none
  else some (signAndRest.1 * ((ds.foldl (fun a c => a * 10 + (c.toNat - 48)) 0 : Nat) : Int))

/-- Splitting a character list at every occurrence of a separator, keeping
empty segments — the behaviour of JS `String.prototype.split` with a
single-character separator. -/
def splitCharAux (sep : Char) : List Char → List Char → List (List Char)
  | [], acc => [acc.reverse]
  | c :: cs, acc =>
      if c = sep then acc.reverse :: splitCharAux sep cs []
      else splitCharAux sep cs (c :: acc)

/-- JS `s.split(sep)` for a one-character separator: `"a:b".split(":") =
["a","b"]`, `"a".split(":") = ["a"]`, `"".split(":") = [""]`. -/
def jsSplit (s : String) (sep : Char) : List String :=
  (splitCharAux sep s.data []).map String.mk

deriving instance DecidableEq for Except

/-- The `port` field of a raw backend spec object: a number, a string, or
absent (`undefined`). -/
inductive PortVal
  | num (n : Int)
  | str (s : String)
  | undef
  deriving DecidableEq, Repr

/-- Model of `parseInt` applied to a `port` field. `parseInt` of an integer number
is that integer; of `undefined` it is `NaN`. Note `parseInt` is idempotent
on its own output, so applying it once here also covers the second
application the source performs in the clone step of
`normalizeBackendHostObject`. -/
def parseIntOf : PortVal → Option Int
  | .num n => some n
  | .str s => parseIntJS s
  | .undef => none

/-- A raw backend specification: either a `"host:port"` string or a
`{host, port}` object (with `host` possibly absent). -/
inductive BackendSpec
  | str (s : String)
  | obj (host : Option String) (port : PortVal)
  deriving DecidableEq, Repr

/-- Rendering of a port value inside `_fullString` (string concatenation
with a number in JS; `NaN` prints as `"NaN"`). -/
def portToString : Option Int → String
  | none => "NaN"
  | some n => toString n

/-- The normalized backend record produced by `normalizeBackendHostObject`:
`{host, port, _fullString}`. `port = none` models `NaN` (such a record is
never returned, the port check throws first, but the field is built before
the check). -/
structure Backend where
  host : String
  port : Option Int
  fullString : String
  deriving DecidableEq, Repr

/-- The coercion half of `normalizeBackendHostObject`: a string spec is
split on `":"` into `{host: split[0], port: parseInt(split[1])}` (a missing
`split[1]` is `undefined`, so its `parseInt` is `NaN`); then the clone step
coerces `host` through the `!= null` check (absent host becomes `""`) and
the port through `parseInt`. -/
def coerceHostPort (backend : BackendSpec) : String × Option Int :=
  let hostPort : Option String × PortVal :=
    match backend with
    | .str s =>
        let split := jsSplit s ':'
        (some (split.headD ""),
          match split[1]? with
          | some p => .str p
          | none => .undef)
    | .obj h p => (h, p)
  (hostPort.1.getD "", parseIntOf hostPort.2)

/-- Source `normalizeBackendHostObject(backend)`: coerce the spec
to a `(host, port)` pair, build `_fullString`, then run the host and port
validity checks, which throw. Thrown strings are `Except.error`. -/
def normalizeBackendHostObject (backend : BackendSpec) : Except String Backend :=
  let host := (coerceHostPort backend).1
  let port := (coerceHostPort backend).2
  let fullString := host ++ ":" ++ portToString port
  if host.length ≤ 0 then
    .error "Missing host string given for backend"
  else if ¬ isValidPort port then
    .error ("Invalid backend port setting: " ++ fullString)
  else
    .ok ⟨host, port, fullString⟩

/-- The body of the backwards `for(let i = n-1; i >= 0; --i)` loop of
`normalizeBackendHostObjectArray`, applied to the REVERSED input list: the
source normalizes the highest index first, so the first error it throws is
the error of the highest-index invalid element.  Returns the normalized
records in processing order (reversed relative to the input). -/
def normalizeLoopRev : List BackendSpec → Except String (List Backend)
  | [] => .ok []
  | s :: rest => do
      let b ← normalizeBackendHostObject s
      let bs ← normalizeLoopRev rest
      pure (b :: bs)

/-- Source `normalizeBackendHostObjectArray(backendArr)`,
restricted to array input (the source wraps a single non-array spec into a
one-element array first; claims in scope only concern arrays). Throws on
null/empty input; otherwise runs the backwards loop, which this embedding
renders as a forward pass over the reversed list followed by un-reversal
of the results. -/
def normalizeBackendHostObjectArray (backendArr : List BackendSpec) :
    Except String (List Backend) :=
  if backendArr.length ≤ 0 then
    .error "Missing backend array configuration"
  else
    (normalizeLoopRev backendArr.reverse).map List.reverse

/-- An in-memory backend record as stored in `this._backendList`.  The
`ref` field models JS reference identity: each allocation carries a
distinct `ref`, so structural equality of `BackendObj` (including `ref`)
is exactly `===` on live objects. `Array.prototype.slice`/`concat` copy
references, so rotation and probe snapshots preserve `ref`s. -/
structure BackendObj where
  host : String
  port : Int
  ref : Nat
  deriving DecidableEq, Repr

/-- The value equality on backends that §3 of the spec prescribes for
rotation/lookup: `(host, port)` only, ignoring object identity. -/
def valueEq (a b : BackendObj) : Bool :=
  a.host == b.host && a.port == b.port

/-- A connected outward socket as produced by `netSocketConnect`, tagged
with `socket._backend = backend` on the success path of `recursiveScan`. -/
structure Socket where
  host : String
  port : Int
  backendTag : BackendObj
  deriving DecidableEq, Repr

/-- ProbeOutcome, from §3 of the spec: the single value `triggerCallback`
delivers — a connected socket, or the exhaustion error whose message
reports `scanPos` as the attempts count. -/
inductive ProbeOutcome
  | success (socket : Socket)
  | exhausted (attempts : Nat)
  deriving DecidableEq, Repr

/-- What one invocation of `scanAndConnectToValidBackend` does, observably:
the backends actually handed to `netSocketConnect` in order, how many times
`triggerCallback` ran, and the delivered outcome. -/
structure ScanResult where
  attempts : List BackendObj
  cbCount : Nat
  outcome : ProbeOutcome
  deriving DecidableEq, Repr

/-- The inner `recursiveScan` of `scanAndConnectToValidBackend`, with the
reachability of the network as the oracle `net host port`.  Faithful to the
source: the exhaustion guard is `scanPos > scanList.length` (strict); an
out-of-range read `scanList[scanPos]` yields `undefined`, which passes the
`backend == null` skip without a connection attempt; otherwise one
connection attempt is made and, on failure, the next position is scanned. -/
def recursiveScan (net : String → Int → Bool) (scanList : List BackendObj)
    (scanPos : Nat) : ScanResult :=
  if _h : scanPos > scanList.length then
    ⟨[], 1, .exhausted scanPos⟩
  else
    match scanList[scanPos]? with
    | none => recursiveScan net scanList (scanPos + 1)
    | some backend =>
        if net backend.host backend.port then
          ⟨[backend], 1, .success ⟨backend.host, backend.port, backend⟩⟩
        else
          let rest := recursiveScan net scanList (scanPos + 1)
          ⟨backend :: rest.attempts, rest.cbCount, rest.outcome⟩
termination_by scanList.length + 1 - scanPos
decreasing_by simp_wf; omega

/-- Source `scanAndConnectToValidBackend(backendArr, …)`: snapshots the list
(`backendArr.slice(0)`) and starts `recursiveScan` at position 0. -/
def scanAndConnectToValidBackend (net : String → Int → Bool)
    (backendArr : List BackendObj) : ScanResult :=
  let scanList := backendArr
  recursiveScan net scanList 0

/-- JS `Array.prototype.indexOf` on the backend list: the first index whose
element is `===` the target, `-1` when absent. -/
def indexOf (l : List BackendObj) (t : BackendObj) : Int :=
  match l.findIdx? (fun b => decide (b = t)) with
  | some i => (i : Int)
  | none => -1

/-- Source `_rotateBackendList(targetHost)`, as a function of the
current `this._backendList`: look the target up by `indexOf` (reference
identity), return the list unchanged when `targetIdx <= 0`, otherwise
`slice(targetIdx) ++ slice(0, targetIdx)`. -/
def rotateBackendList (backendList : List BackendObj) (targetHost : BackendObj) :
    List BackendObj :=
  let targetIdx := indexOf backendList targetHost
  if targetIdx ≤ 0 then
    backendList
  else
    let failedArr := backendList.take targetIdx.toNat
    let targetArr := backendList.drop targetIdx.toNat
    targetArr ++ failedArr

/-- The state one in-flight probe keeps: its private snapshot
`scanList = backendArr.slice(0)` and the cursor `scanPos`. -/
structure ProbeState where
  scanList : List BackendObj
  scanPos : Nat
  deriving DecidableEq, Repr

/-- The shared-state system of §5: the registry's current list
(`this._backendList`) alongside one in-flight probe. -/
structure SysState where
  registry : List BackendObj
  probe : ProbeState
  deriving DecidableEq, Repr

/-- Events that can interleave while a probe is in flight: a concurrent
rotation commits against the registry, or the probe advances its cursor by
one scan step. -/
inductive SysAction
  | rotate (t : BackendObj)
  | attempt
  deriving DecidableEq, Repr

/-- Whether an action is a probe step. -/
def SysAction.isAttempt : SysAction → Bool
  | .rotate _ => false
  | .attempt => true

/-- Starting a probe against the registry: `scanList = backendArr.slice(0)`
captures the list at that moment; rotations replace `this._backendList`
with a fresh array and never touch the captured snapshot. -/
def startProbe (registry : List BackendObj) : SysState :=
  ⟨registry, ⟨registry, 0⟩⟩

/-- One interleaving step: a rotation rewrites only the registry reference;
a probe step advances only the probe's own cursor over its own snapshot. -/
def sysStep (s : SysState) : SysAction → SysState
  | .rotate t => { s with registry := rotateBackendList s.registry t }
  | .attempt => { s with probe := { s.probe with scanPos := s.probe.scanPos + 1 } }

/-- The raw constructor options object (§6): absent fields are `none`
(`undefined`). `port` is `Option Int`; `log`/`shuffle` are JS truthiness
reduced to the boolean cases in scope. -/
structure OptObject where
  port : Option Int
  host : Option String
  backend : List BackendSpec
  log : Option Bool
  shuffle : Option Bool
  connectTimeout : Option Int
  deriving DecidableEq, Repr

/-- The settings `_processOptObject` stores on the instance. -/
structure Settings where
  host : Option String
  port : Int
  backendList : List Backend
  log : Bool
  shuffle : Bool
  connectTimeout : Int
  deriving DecidableEq, Repr

/-- Source line `let connectTimeout = opt.connectTimeout || 2500;` of
`_processOptObject`: `||` takes the right operand on any falsy left
operand, and the falsy integers-or-undefined cases are `undefined` and
`0`. -/
def effectiveConnectTimeout (v : Option Int) : Int :=
  match v with
  | none => 2500
  | some n => if n = 0 then 2500 else n

/-- Source `_processOptObject(opt)`: validate the server port with
`isValidPort`, coerce `host` through `||` (falsy host — absent or the empty
string — becomes `null`), normalize the backend array, default `log` to
true unless explicitly false, reduce `shuffle` to truthiness, and default
`connectTimeout` through `opt.connectTimeout || 2500` — so the falsy
values `undefined` and `0` both yield 2500. -/
def processOptObject (opt : OptObject) : Except String Settings := do
  let port ← match opt.port with
    | some p => if isValidPort (some p) then pure p
                else throw ("Invalid server port configured : " ++ toString p)
    | none => throw "Invalid server port configured : undefined"
  let host : Option String :=
    match opt.host with
    | some h => if h = "" then none else some h
    | none => none
  let backendList ← normalizeBackendHostObjectArray opt.backend
  let log : Bool :=
    match opt.log with
    | none => true
    | some b => b
  let shuffle : Bool :=
    match opt.shuffle with
    | some b => b
    | none => false
  let connectTimeout : Int := effectiveConnectTimeout opt.connectTimeout
  pure ⟨host, port, backendList, log, shuffle, connectTimeout⟩

/-- A JS runtime exception relevant here: reading an identifier that is not
bound in any enclosing scope. -/
inductive JsError
  | referenceError (name : String)
  deriving DecidableEq, Repr

/-- The listening server handle: whether it still accepts inbound
connections. -/
structure ServerHandle where
  accepting : Bool
  deriving DecidableEq, Repr

/-- The slice of a `TCPFailoverProxy` instance that `close()` touches:
`this._server` (null after shutdown). -/
structure ProxyInstance where
  server : Option ServerHandle
  deriving DecidableEq, Repr

/-- Identifier lookup inside the body of `close()`.  The method is declared
as `close()` — no parameters — and no enclosing scope of the class body
binds `callback`, so the lookup for `callback` fails. -/
def closeScopeLookup (name : String) : Option Unit :=
  if name = "this" then some () else none

/-- Evaluating an identifier: an unbound name throws `ReferenceError`. -/
def evalIdent (name : String) : Except JsError Unit :=
  match closeScopeLookup name with
  | some v => .ok v
  | none => .error (.referenceError name)

/-- Source `close()`.  With a live server it executes
`this._server.close( callback )`: the argument `callback` is evaluated
before the call, and since it is unbound the whole statement throws before
`server.close` runs and before `this._server = null`.  Without a live
server, `if( callback )` reads the same unbound identifier and throws
too.  The `.ok` continuations transcribe the statements that would follow
on each path. -/
def close (self : ProxyInstance) : Except JsError ProxyInstance :=
  match self.server with
  | some srv => do
      let _cb ← evalIdent "callback"
      let _closed := { srv with accepting := false }
      pure { server := none }
  | none => do
      let _cb ← evalIdent "callback"
      pure self

/-- Claim C8: `normalize("host:80")` yields host `"host"`, port `80`;
`normalize({host:"a", port:"80"})` coerces the string port to `80`; and
normalization fails whenever the coerced host is empty (empty or missing
in the spec) or the coerced port is `0` or at least `65536`. -/
theorem normalize_examples_and_failures :
    normalizeBackendHostObject (.str "host:80") = .ok ⟨"host", some 80, "host:80"⟩ ∧
    normalizeBackendHostObject (.obj (some "a") (.str "80")) = .ok ⟨"a", some 80, "a:80"⟩ ∧
    ∀ spec : BackendSpec,
      ((coerceHostPort spec).1 = "" ∨ (coerceHostPort spec).2 = some 0 ∨
        ∃ n : Int, (coerceHostPort spec).2 = some n ∧ 65536 ≤ n) →
      ∃ e, normalizeBackendHostObject spec = .error e := by
  refine ⟨by decide, by decide, ?_⟩
  intro spec h
  unfold normalizeBackendHostObject
  rcases h with h1 | h2 | ⟨n, hn, hge⟩
  · have hlen : (coerceHostPort spec).1.length ≤ 0 := by simp [h1]
    rw [if_pos hlen]
    exact ⟨_, rfl⟩
  · by_cases hh : (coerceHostPort spec).1.length ≤ 0
    · rw [if_pos hh]
      exact ⟨_, rfl⟩
    · rw [if_neg hh, if_pos (by rw [h2]; simp [isValidPort])]
      exact ⟨_, rfl⟩
  · by_cases hh : (coerceHostPort spec).1.length ≤ 0
    · rw [if_pos hh]
      exact ⟨_, rfl⟩
    · rw [if_neg hh, if_pos (by rw [hn]; simp [isValidPort]; omega)]
      exact ⟨_, rfl⟩

theorem normalize_examples_and_failures_witness :
    (coerceHostPort (.str ":80")).1 = "" ∧
    ∃ e, normalizeBackendHostObject (.str ":80") = .error e :=
  ⟨by decide, normalize_examples_and_failures.2.2 (.str ":80") (Or.inl (by decide))⟩

/-- If every element of the first block normalizes fine and the next
element throws `e`, the backwards loop (here: the forward pass over the
reversed array) throws `e`. -/
theorem normalizeLoopRev_error (good : List BackendSpec) (spec : BackendSpec)
    (rest : List BackendSpec) (e : String)
    (hgood : ∀ s ∈ good, ∃ b, normalizeBackendHostObject s = .ok b)
    (herr : normalizeBackendHostObject spec = .error e) :
    normalizeLoopRev (good ++ spec :: rest) = .error e := by
  induction good with
  | nil =>
      simp only [List.nil_append, normalizeLoopRev, herr]
      rfl
  | cons g gs ih =>
      obtain ⟨b, hb⟩ := hgood g (by simp)
      have hrest := ih (fun s hs => hgood s (by simp [hs]))
      simp only [List.cons_append, normalizeLoopRev, hb, List.append_eq, hrest]
      rfl

/-- Claim C2, counterexample: on `["a:0", "b:70000"]` both elements are
invalid with distinct errors; `normalizeAll` propagates the error of the
LAST invalid element (`"b:70000"`), not the first one as claimed. -/
theorem normalizeArray_error_from_last :
    normalizeBackendHostObjectArray [.str "a:0", .str "b:70000"] =
      .error "Invalid backend port setting: b:70000" ∧
    normalizeBackendHostObject (.str "a:0") = .error "Invalid backend port setting: a:0" ∧
    ("Invalid backend port setting: b:70000" : String) ≠ "Invalid backend port setting: a:0" := by
  refine ⟨by decide, by decide, by decide⟩

/-- Claim C2, amended: each element is normalized independently; the error of
the highest-index invalid element propagates (the source loop runs from
the top index downwards, so that error is thrown first). -/
theorem normalizeArray_last_invalid_error (arr : List BackendSpec) (k : Nat)
    (spec : BackendSpec) (e : String)
    (hk : arr[k]? = some spec)
    (herr : normalizeBackendHostObject spec = .error e)
    (hafter : ∀ s ∈ arr.drop (k + 1), ∃ b, normalizeBackendHostObject s = .ok b) :
    normalizeBackendHostObjectArray arr = .error e := by
  have hklt : k < arr.length := by
    by_contra hge
    rw [List.getElem?_eq_none (by omega)] at hk
    exact Option.noConfusion hk
  have hdecomp : arr = arr.take k ++ arr[k] :: arr.drop (k + 1) := by
    rw [List.getElem_cons_drop]
    exact (List.take_append_drop k arr).symm
  have hspec : arr[k] = spec := by
    have := List.getElem?_eq_getElem hklt
    rw [this] at hk
    exact Option.some.inj hk
  have hrev : arr.reverse =
      (arr.drop (k + 1)).reverse ++ spec :: (arr.take k).reverse := by
    conv_lhs => rw [hdecomp, hspec]
    simp
  unfold normalizeBackendHostObjectArray
  rw [if_neg (by omega)]
  rw [hrev, normalizeLoopRev_error _ spec _ e
    (fun s hs => hafter s (List.mem_reverse.mp hs)) herr]
  rfl

theorem normalizeArray_last_invalid_error_witness :
    normalizeBackendHostObjectArray [.str "a:0", .str "h:1"] =
      .error "Invalid backend port setting: a:0" :=
  normalizeArray_last_invalid_error [.str "a:0", .str "h:1"] 0 (.str "a:0")
    "Invalid backend port setting: a:0" (by decide) (by decide)
    (fun s hs => by
      simp at hs
      exact ⟨⟨"h", some 1, "h:1"⟩, by rw [hs]; decide⟩)

/-- When every candidate is down, the scan starting at `pos` attempts the
candidates from `pos` on, each once and in order, and reports exhaustion
with count `length + 1` (the loop counter has overrun the list by one when
the guard finally fires). -/
theorem recursiveScan_all_down (net : String → Int → Bool) (l : List BackendObj)
    (hdown : ∀ b ∈ l, net b.host b.port = false) :
    ∀ n pos, pos + n = l.length + 1 →
      recursiveScan net l pos = ⟨l.drop pos, 1, .exhausted (l.length + 1)⟩ := by
  intro n
  induction n with
  | zero =>
      intro pos hp
      have hpos : pos = l.length + 1 := by omega
      subst hpos
      rw [recursiveScan, dif_pos (by omega)]
      rw [List.drop_eq_nil_of_le (by omega)]
  | succ n ih =>
      intro pos hp
      rw [recursiveScan, dif_neg (by omega)]
      cases hpe : l[pos]? with
      | none =>
          have hlen : pos = l.length := by
            have := List.getElem?_eq_none_iff.mp hpe
            omega
          simp only [hpe]
          rw [ih (pos + 1) (by omega)]
          subst hlen
          simp [List.drop_length, List.drop_eq_nil_of_le]
      | some b =>
          obtain ⟨hplt, heq⟩ := List.getElem?_eq_some.mp hpe
          have hb : b ∈ l := heq ▸ List.getElem_mem hplt
          simp only [hpe]
          rw [hdown b hb]
          simp only [Bool.false_eq_true, if_false]
          rw [ih (pos + 1) (by omega)]
          have hsplit : l.drop pos = b :: l.drop (pos + 1) := by
            rw [← heq]
            exact (List.getElem_cons_drop l pos hplt).symm
          rw [hsplit]

/-- Claim C1, the code's actual behaviour: when every connection attempt fails,
`probe` does try each candidate exactly once, in list order from index 0
(`attempts = l`), but the exhaustion it reports counts `N + 1`, not the
list length `N`: the guard `scanPos > scanList.length` lets the loop read
one position past the end before giving up. -/
theorem scan_all_down_reports_length_succ (net : String → Int → Bool)
    (l : List BackendObj) (hdown : ∀ b ∈ l, net b.host b.port = false) :
    scanAndConnectToValidBackend net l = ⟨l, 1, .exhausted (l.length + 1)⟩ := by
  have := recursiveScan_all_down net l hdown (l.length + 1) 0 (by omega)
  simpa [scanAndConnectToValidBackend] using this

theorem scan_all_down_reports_length_succ_witness :
    scanAndConnectToValidBackend (fun _ _ => false)
        [⟨"a", 1, 0⟩, ⟨"b", 2, 1⟩, ⟨"c", 3, 2⟩] =
      ⟨[⟨"a", 1, 0⟩, ⟨"b", 2, 1⟩, ⟨"c", 3, 2⟩], 1, .exhausted 4⟩ :=
  scan_all_down_reports_length_succ (fun _ _ => false)
    [⟨"a", 1, 0⟩, ⟨"b", 2, 1⟩, ⟨"c", 3, 2⟩] (fun _ _ => rfl)

/-- The scan from any position triggers the completion callback exactly
once. -/
theorem recursiveScan_cbCount (net : String → Int → Bool) (l : List BackendObj) :
    ∀ n pos, l.length + 1 - pos ≤ n → (recursiveScan net l pos).cbCount = 1 := by
  intro n
  induction n with
  | zero =>
      intro pos hp
      rw [recursiveScan, dif_pos (by omega)]
  | succ n ih =>
      intro pos hp
      by_cases hg : pos > l.length
      · rw [recursiveScan, dif_pos hg]
      · rw [recursiveScan, dif_neg hg]
        cases hpe : l[pos]? with
        | none =>
            simp only [hpe]
            exact ih (pos + 1) (by omega)
        | some b =>
            simp only [hpe]
            by_cases hnet : net b.host b.port
            · rw [if_pos hnet]
            · rw [if_neg hnet]
              exact ih (pos + 1) (by omega)

/-- Claim C7: every run of `probe` delivers its result by exactly one
invocation of `triggerCallback` — never zero, never two. -/
theorem scan_triggers_callback_once (net : String → Int → Bool)
    (l : List BackendObj) :
    (scanAndConnectToValidBackend net l).cbCount = 1 :=
  recursiveScan_cbCount net l (l.length + 1) 0 (by omega)

/-- When the first reachable candidate sits at index `k`, the scan from any
`pos ≤ k` attempts exactly the candidates at `pos..k` in order and stops
with the socket for `l[k]`. -/
theorem recursiveScan_first_up (net : String → Int → Bool) (l : List BackendObj)
    (k : Nat) (bk : BackendObj) (hk : l[k]? = some bk)
    (hdown : ∀ j b, j < k → l[j]? = some b → net b.host b.port = false)
    (hup : net bk.host bk.port = true) :
    ∀ n pos, pos + n = k →
      recursiveScan net l pos =
        ⟨(l.drop pos).take (n + 1), 1, .success ⟨bk.host, bk.port, bk⟩⟩ := by
  obtain ⟨hklt, hkeq⟩ := List.getElem?_eq_some.mp hk
  intro n
  induction n with
  | zero =>
      intro pos hp
      have hpos : pos = k := by omega
      subst hpos
      rw [recursiveScan, dif_neg (by omega)]
      simp only [hk]
      rw [if_pos hup]
      have hsplit : l.drop pos = bk :: l.drop (pos + 1) := by
        rw [← hkeq]
        exact (List.getElem_cons_drop l pos hklt).symm
      rw [hsplit]
      rfl
  | succ n ih =>
      intro pos hp
      have hplt : pos < l.length := by omega
      rw [recursiveScan, dif_neg (by omega)]
      cases hpe : l[pos]? with
      | none =>
          rw [List.getElem?_eq_none_iff] at hpe
          omega
      | some b =>
          obtain ⟨_, hbeq⟩ := List.getElem?_eq_some.mp hpe
          simp only [hpe]
          rw [hdown pos b (by omega) hpe]
          simp only [Bool.false_eq_true, if_false]
          rw [ih (pos + 1) (by omega)]
          have hsplit : l.drop pos = b :: l.drop (pos + 1) := by
            rw [← hbeq]
            exact (List.getElem_cons_drop l pos hplt).symm
          rw [hsplit]
          rfl

/-- Claim C5: with the first reachable candidate at index `k`, `probe`
attempts exactly the candidates at indices `0..k` — `k + 1` attempts, in
order, never touching an index beyond `k` — and returns that candidate's
connected socket, tagged with the backend. -/
theorem scan_stops_at_first_up (net : String → Int → Bool) (l : List BackendObj)
    (k : Nat) (bk : BackendObj) (hk : l[k]? = some bk)
    (hdown : ∀ j b, j < k → l[j]? = some b → net b.host b.port = false)
    (hup : net bk.host bk.port = true) :
    scanAndConnectToValidBackend net l =
      ⟨l.take (k + 1), 1, .success ⟨bk.host, bk.port, bk⟩⟩ ∧
    (l.take (k + 1)).length = k + 1 := by
  have hklt := (List.getElem?_eq_some.mp hk).1
  have := recursiveScan_first_up net l k bk hk hdown hup k 0 (by omega)
  constructor
  · simpa [scanAndConnectToValidBackend] using this
  · simp
    omega

theorem scan_stops_at_first_up_witness :
    scanAndConnectToValidBackend (fun h _ => h == "b")
        [⟨"a", 1, 0⟩, ⟨"b", 2, 1⟩, ⟨"c", 3, 2⟩] =
      ⟨[⟨"a", 1, 0⟩, ⟨"b", 2, 1⟩], 1,
        .success ⟨"b", 2, ⟨"b", 2, 1⟩⟩⟩ := by
  have h := scan_stops_at_first_up (fun h _ => h == "b")
    [⟨"a", 1, 0⟩, ⟨"b", 2, 1⟩, ⟨"c", 3, 2⟩] 1 ⟨"b", 2, 1⟩ (by decide)
    (fun j b hj hb => by
      have hj0 : j = 0 := by omega
      subst hj0
      simp at hb
      rw [← hb]
      rfl)
    (by decide)
  simpa using h.1

/-- Claim C3, counterexample: `⟨"b", 2, 3⟩` is a value-equal copy (same host
and port, different allocation) of the entry at index 1, so the claim
predicts rotation to `[B, C, A]`; but `indexOf` matches by reference
identity, finds nothing, and the code leaves the list unchanged. -/
theorem rotate_ignores_value_equal_copy :
    valueEq ⟨"b", 2, 3⟩ ⟨"b", 2, 1⟩ = true ∧
    ([⟨"a", 1, 0⟩, ⟨"b", 2, 1⟩, ⟨"c", 3, 2⟩] : List BackendObj).findIdx
        (fun b => valueEq b ⟨"b", 2, 3⟩) = 1 ∧
    rotateBackendList [⟨"a", 1, 0⟩, ⟨"b", 2, 1⟩, ⟨"c", 3, 2⟩] ⟨"b", 2, 3⟩ =
      [⟨"a", 1, 0⟩, ⟨"b", 2, 1⟩, ⟨"c", 3, 2⟩] ∧
    ([⟨"a", 1, 0⟩, ⟨"b", 2, 1⟩, ⟨"c", 3, 2⟩] : List BackendObj) ≠
      [⟨"b", 2, 1⟩, ⟨"c", 3, 2⟩, ⟨"a", 1, 0⟩] := by
  refine ⟨by decide, by decide, by decide, by decide⟩

/-- Claim C3, amended: rotation locates the target by reference identity
(JS `===`, here structural equality including the allocation tag): when no
entry is the same object, or the first such entry is at index 0, the list
is unchanged; otherwise with that entry at index `i` the list becomes
`list[i..end) ++ list[0..i)`. -/
theorem rotate_locates_by_identity (l : List BackendObj) (t : BackendObj) :
    rotateBackendList l t =
      match l.findIdx? (fun b => decide (b = t)) with
      | none => l
      | some 0 => l
      | some (i + 1) => l.drop (i + 1) ++ l.take (i + 1) := by
  unfold rotateBackendList indexOf
  cases h : l.findIdx? (fun b => decide (b = t)) with
  | none => simp
  | some i =>
      cases i with
      | zero => simp
      | succ j =>
          simp only [h]
          rw [if_neg (by omega)]
          congr 1

/-- Claim C6: whatever the target, rotation yields a permutation of the
input (same length, same multiset of entries — nothing lost, nothing
duplicated); and because rotation only swings the registry reference to a
freshly built sequence, a probe's previously captured snapshot is left
untouched by it. -/
theorem rotate_perm_and_snapshot_safe (l : List BackendObj) (t : BackendObj) :
    (rotateBackendList l t).Perm l ∧
    ∀ s : SysState, (sysStep s (SysAction.rotate t)).probe.scanList = s.probe.scanList := by
  constructor
  · unfold rotateBackendList indexOf
    cases h : l.findIdx? (fun b => decide (b = t)) with
    | none => simp
    | some i =>
        cases i with
        | zero => simp
        | succ j =>
            simp only [h]
            rw [if_neg (by omega)]
            calc (l.drop ((j : Int) + 1).toNat ++ l.take ((j : Int) + 1).toNat).Perm
                  (l.take ((j : Int) + 1).toNat ++ l.drop ((j : Int) + 1).toNat) :=
                    List.perm_append_comm
              _ = l := List.take_append_drop _ l
  · intro s
    rfl

/-- Claim C4, the code's actual behaviour: `close()` always throws
`ReferenceError: callback is not defined` — the body reads an identifier
`callback` that the parameterless method never binds — so with a live
server the `server.close` call and the `this._server = null` assignment
are never reached and the listener keeps accepting. -/
theorem close_always_throws (self : ProxyInstance) :
    close self = .error (.referenceError "callback") := by
  rcases self with ⟨_ | srv⟩ <;> rfl

/-- One interleaving step changes the probe component only through the
probe component: rotations leave it alone entirely. -/
theorem sysStep_probe_congr (s1 s2 : SysState) (a : SysAction)
    (h : s1.probe = s2.probe) : (sysStep s1 a).probe = (sysStep s2 a).probe := by
  cases a <;> simp [sysStep, h]

/-- The probe component after a whole interleaving depends only on the
probe component at the start. -/
theorem foldl_sysStep_probe_congr (acts : List SysAction) :
    ∀ s1 s2 : SysState, s1.probe = s2.probe →
      (acts.foldl sysStep s1).probe = (acts.foldl sysStep s2).probe := by
  induction acts with
  | nil => intro s1 s2 h; exact h
  | cons a rest ih =>
      intro s1 s2 h
      exact ih (sysStep s1 a) (sysStep s2 a) (sysStep_probe_congr s1 s2 a h)

/-- No interleaving step ever rewrites a probe's captured snapshot. -/
theorem foldl_sysStep_scanList (acts : List SysAction) :
    ∀ s : SysState, ((acts.foldl sysStep s).probe).scanList = s.probe.scanList := by
  induction acts with
  | nil => intro s; rfl
  | cons a rest ih =>
      intro s
      rw [List.foldl_cons, ih (sysStep s a)]
      cases a <;> rfl

/-- Deleting the interleaved rotations does not change the probe
component: only the probe's own steps matter to it. -/
theorem foldl_sysStep_filter_attempts (acts : List SysAction) :
    ∀ s : SysState,
      (acts.foldl sysStep s).probe =
        ((acts.filter SysAction.isAttempt).foldl sysStep s).probe := by
  induction acts with
  | nil => intro s; rfl
  | cons a rest ih =>
      intro s
      cases a with
      | rotate t =>
          rw [List.foldl_cons]
          have hfilter : (SysAction.rotate t :: rest).filter SysAction.isAttempt =
              rest.filter SysAction.isAttempt := rfl
          rw [hfilter]
          rw [foldl_sysStep_probe_congr rest (sysStep s (SysAction.rotate t)) s rfl]
          exact ih s
      | attempt =>
          rw [List.foldl_cons]
          have hfilter : (SysAction.attempt :: rest).filter SysAction.isAttempt =
              SysAction.attempt :: rest.filter SysAction.isAttempt := rfl
          rw [hfilter, List.foldl_cons]
          exact ih (sysStep s SysAction.attempt)

/-- Claim C9: an in-flight probe is driven entirely by the snapshot it
captured when it started: after any interleaving of rotations and probe
steps the snapshot is still the starting list, the probe component equals
what it would be with every rotation deleted from the schedule, and the
remaining scan (candidates and order) is the scan of the original
snapshot. -/
theorem probe_unaffected_by_rotations (net : String → Int → Bool)
    (l0 : List BackendObj) (acts : List SysAction) :
    ((acts.foldl sysStep (startProbe l0)).probe).scanList = l0 ∧
    (acts.foldl sysStep (startProbe l0)).probe =
      ((acts.filter SysAction.isAttempt).foldl sysStep (startProbe l0)).probe ∧
    recursiveScan net ((acts.foldl sysStep (startProbe l0)).probe).scanList
        ((acts.foldl sysStep (startProbe l0)).probe).scanPos =
      recursiveScan net l0 ((acts.foldl sysStep (startProbe l0)).probe).scanPos := by
  have h1 : ((acts.foldl sysStep (startProbe l0)).probe).scanList = l0 :=
    foldl_sysStep_scanList acts (startProbe l0)
  exact ⟨h1, foldl_sysStep_filter_attempts acts (startProbe l0), by rw [h1]⟩

/-- In the `Except` monad a thrown error short-circuits the rest of the
`do` block. -/
theorem throw_bind_eq_error {e : String} {a b : Type} (f : a → Except String b) :
    ((throw e : Except String a) >>= f) = Except.error e := rfl

/-- Claim C10: whenever `connectTimeout` is absent or `0` (a falsy value for
`||`), the constructor stores the default 2500 ms — an explicit `0` is not
honored as a zero timeout. -/
theorem connectTimeout_falsy_defaults (opt : OptObject) (settings : Settings)
    (hfalsy : opt.connectTimeout = none ∨ opt.connectTimeout = some 0)
    (hok : processOptObject opt = .ok settings) :
    settings.connectTimeout = 2500 := by
  have heff : effectiveConnectTimeout opt.connectTimeout = 2500 := by
    rcases hfalsy with h | h <;> simp [h, effectiveConnectTimeout]
  rcases hp : opt.port with _ | p
  · simp [processOptObject, hp, throw_bind_eq_error] at hok
  · by_cases hv : isValidPort (some p)
    · rcases hb : normalizeBackendHostObjectArray opt.backend with e | bl
      · simp [processOptObject, hp, hv, hb] at hok
      · simp [processOptObject, hp, hv, hb] at hok
        subst hok
        exact heff
    · simp [processOptObject, hp, hv, throw_bind_eq_error] at hok

theorem connectTimeout_falsy_defaults_witness :
    processOptObject ⟨some 8080, none, [.str "h:1"], none, none, some 0⟩ =
      .ok ⟨none, 8080, [⟨"h", some 1, "h:1"⟩], true, false, 2500⟩ ∧
    (⟨none, 8080, [⟨"h", some 1, "h:1"⟩], true, false, 2500⟩ : Settings).connectTimeout = 2500 := by
  constructor
  · decide
  · exact connectTimeout_falsy_defaults ⟨some 8080, none, [.str "h:1"], none, none, some 0⟩
      ⟨none, 8080, [⟨"h", some 1, "h:1"⟩], true, false, 2500⟩ (Or.inr rfl) (by decide)
